import Mathlib

set_option maxRecDepth 16000

/-!
Verification development for the MED symbolic-regression workflow.

The embedding follows the three source modules:
* general_utils: create_function (sympy-based equation compilation) and
  split_df (seeded train/test split of a dataframe);
* MEDProcessor: constructor validation, prepare_data (parameter bounds),
  test_equations (relative-error evaluation over test rows) and
  get_complexity_equation (artifact lookup by complexity);
* med_fitting: the batch driver (iteration glue, not modelled here).

Python/numpy floats are modelled by exact rationals (ℚ); numpy's
exception-free arithmetic is modelled by the type NumVal, which adjoins
the non-finite float values inf, -inf and nan to ℚ, plus a marker undet
for real values (such as log 2) that the rational model does not
determine.  Dataframes are modelled as lists of rows, a row being an
association list from column name to rational value.
-/

namespace MedSR

/-- Numeric values flowing through equation evaluation: an exact rational
(the model of a finite float), the two infinities and nan produced by
numpy's exception-free arithmetic, and a marker for real results that are
not determined by the rational model (e.g. log 2, exp 1). -/
inductive NumVal where
  | fin (q : ℚ)
  | inf
  | ninf
  | nan
  | undet
deriving DecidableEq

/-- Negation of a numeric value. -/
def NumVal.neg : NumVal → NumVal
  | .fin q => .fin (-q)
  | .inf => .ninf
  | .ninf => .inf
  | .nan => .nan
  | .undet => .undet

/-- Addition with numpy float semantics: nan propagates, inf + (-inf) = nan. -/
def NumVal.add : NumVal → NumVal → NumVal
  | .nan, _ => .nan
  | _, .nan => .nan
  | .undet, _ => .undet
  | _, .undet => .undet
  | .fin a, .fin b => .fin (a + b)
  | .inf, .ninf => .nan
  | .ninf, .inf => .nan
  | .inf, _ => .inf
  | _, .inf => .inf
  | .ninf, _ => .ninf
  | _, .ninf => .ninf

/-- Subtraction, defined as addition of the negation (as for IEEE values). -/
def NumVal.sub (a b : NumVal) : NumVal := a.add b.neg

/-- Multiplication with numpy float semantics: nan propagates, inf * 0 = nan. -/
def NumVal.mul : NumVal → NumVal → NumVal
  | .nan, _ => .nan
  | _, .nan => .nan
  | .undet, _ => .undet
  | _, .undet => .undet
  | .fin a, .fin b => .fin (a * b)
  | .fin a, .inf => if 0 < a then .inf else if a < 0 then .ninf else .nan
  | .fin a, .ninf => if 0 < a then .ninf else if a < 0 then .inf else .nan
  | .inf, .fin b => if 0 < b then .inf else if b < 0 then .ninf else .nan
  | .ninf, .fin b => if 0 < b then .ninf else if b < 0 then .inf else .nan
  | .inf, .inf => .inf
  | .ninf, .ninf => .inf
  | .inf, .ninf => .ninf
  | .ninf, .inf => .ninf

/-- Division with numpy float semantics: division by zero yields a signed
infinity (or nan for 0/0) with a runtime warning, never an exception. -/
def NumVal.div : NumVal → NumVal → NumVal
  | .nan, _ => .nan
  | _, .nan => .nan
  | .undet, _ => .undet
  | _, .undet => .undet
  | .fin a, .fin b =>
      if b = 0 then
        if a = 0 then .nan else if 0 < a then .inf else .ninf
      else .fin (a / b)
  | .fin _, .inf => .fin 0
  | .fin _, .ninf => .fin 0
  | .inf, .fin b => if b < 0 then .ninf else .inf
  | .ninf, .fin b => if b < 0 then .inf else .ninf
  | .inf, .inf => .nan
  | .inf, .ninf => .nan
  | .ninf, .inf => .nan
  | .ninf, .ninf => .nan

/-- Absolute value of a numeric value. -/
def NumVal.abs : NumVal → NumVal
  | .fin q => .fin |q|
  | .inf => .inf
  | .ninf => .inf
  | .nan => .nan
  | .undet => .undet

/-- Exponentiation with numpy float semantics.  Anything to the power 0 is
1; a rational base with an integer exponent is computed exactly
(0 to a negative power gives inf, with a warning but no exception);
powers that are irrational in general are left undetermined by the
rational model. -/
def NumVal.powv : NumVal → NumVal → NumVal
  | .undet, _ => .undet
  | _, .undet => .undet
  | a, .fin e =>
      if e = 0 then .fin 1
      else
        match a with
        | .fin b =>
            if e.den = 1 then
              if b = 0 ∧ e < 0 then .inf
              else .fin (b ^ e.num)
            else if 0 < b then .undet
            else if b = 0 then (if 0 < e then .fin 0 else .inf)
            else .nan
        | .inf => if 0 < e then .inf else .fin 0
        | .ninf =>
            if 0 < e then
              if e.den = 1 ∧ e.num % 2 ≠ 0 then .ninf else .inf
            else .fin 0
        | .nan => .nan
        | .undet => .undet
  | .fin b, .nan => if b = 1 then .fin 1 else .nan
  | _, .nan => .nan
  | _, _ => .undet

/-- Exponential function (numpy.exp): exp 0 = 1, exp (-inf) = 0,
exp inf = inf; other finite arguments give an irrational result, left
undetermined by the rational model. -/
def NumVal.expv : NumVal → NumVal
  | .fin q => if q = 0 then .fin 1 else .undet
  | .inf => .inf
  | .ninf => .fin 0
  | .nan => .nan
  | .undet => .undet

/-- Natural logarithm (numpy.log): log of a negative number is nan, log 0
is -inf (warning, never an exception), log 1 = 0; log of a positive
rational other than 1 is irrational, left undetermined. -/
def NumVal.logv : NumVal → NumVal
  | .fin q => if q < 0 then .nan else if q = 0 then .ninf else if q = 1 then .fin 0 else .undet
  | .inf => .inf
  | .ninf => .nan
  | .nan => .nan
  | .undet => .undet

/-- A value that is definitely one of the non-finite floats inf, -inf, nan. -/
def NumVal.nonFinite : NumVal → Bool
  | .inf => true
  | .ninf => true
  | .nan => true
  | _ => false

/-- Python exceptions relevant to the equation pipeline: a sympify
parse/compile failure, a NameError raised when a compiled function
references an unbound symbol, and the ValueError raised by constructor
validation. -/
inductive PyErr where
  | sympifyError (msg : String)
  | nameError (name : String)
  | valueError (msg : String)
deriving DecidableEq

/-- Abstract syntax of the algebraic expressions produced by sympify on
the workflow's equation strings: numeric literals, free symbols, the
binary operators + - * / **, unary negation, and applied functions. -/
inductive SymExpr where
  | num (q : ℚ)
  | var (name : String)
  | add (a b : SymExpr)
  | sub (a b : SymExpr)
  | mul (a b : SymExpr)
  | div (a b : SymExpr)
  | pow (a b : SymExpr)
  | neg (a : SymExpr)
  | app (fn : String) (arg : SymExpr)
deriving DecidableEq

/-- Evaluation of an expression in an environment binding symbol names to
values, following the code generated by sympy.lambdify with the numpy
backend: a symbol that is not bound raises a NameError at call time, as
does an applied function other than the exp and log passed in the locals
dictionary; arithmetic never raises and follows numpy float semantics. -/
def SymExpr.eval (env : List (String × NumVal)) : SymExpr → Except PyErr NumVal
  | .num q => .ok (.fin q)
  | .var s =>
      match env.lookup s with
      | some v => .ok v
      | none => .error (.nameError s)
  | .add a b => do pure (NumVal.add (← a.eval env) (← b.eval env))
  | .sub a b => do pure (NumVal.sub (← a.eval env) (← b.eval env))
  | .mul a b => do pure (NumVal.mul (← a.eval env) (← b.eval env))
  | .div a b => do pure (NumVal.div (← a.eval env) (← b.eval env))
  | .pow a b => do pure (NumVal.powv (← a.eval env) (← b.eval env))
  | .neg a => do pure (NumVal.neg (← a.eval env))
  | .app fn a => do
      let v ← a.eval env
      if fn = "exp" then pure (NumVal.expv v)
      else if fn = "log" then pure (NumVal.logv v)
      else .error (.nameError fn)

/-- Tokens of the expression grammar accepted by sympify on the
workflow's equation strings. -/
inductive Tok where
  | num (q : ℚ)
  | ident (s : String)
  | plus
  | minus
  | star
  | slash
  | dstar
  | lparen
  | rparen
deriving DecidableEq

/-- Character class: start of an identifier. -/
def isIdentStart (c : Char) : Bool := c.isAlpha || c = '_'

/-- Character class: continuation of an identifier. -/
def isIdentChar (c : Char) : Bool := c.isAlphanum || c = '_'

/-- Natural number denoted by a list of decimal digit characters. -/
def natOfDigits (ds : List Char) : ℕ :=
  ds.foldl (fun n c => 10 * n + (c.toNat - 48)) 0

/-- Rational denoted by an integer part and a fractional part, both given
as decimal digit lists. -/
def ratOfNumChars (intPart fracPart : List Char) : ℚ :=
  (natOfDigits intPart : ℚ) + (natOfDigits fracPart : ℚ) / ((10 : ℚ) ^ fracPart.length)

/-- Lexer for the expression grammar.  Fuel-indexed; each step consumes at
least one character, so fuel = length + 1 always suffices. -/
def lexTokens : ℕ → List Char → Except PyErr (List Tok)
  | 0, _ => .error (.sympifyError "lexer fuel exhausted")
  | _, [] => .ok []
  | fuel + 1, c :: cs =>
      if c = ' ' ∨ c = '\t' then lexTokens fuel cs
      else if c = '+' then (fun ts => Tok.plus :: ts) <$> lexTokens fuel cs
      else if c = '-' then (fun ts => Tok.minus :: ts) <$> lexTokens fuel cs
      else if c = '/' then (fun ts => Tok.slash :: ts) <$> lexTokens fuel cs
      else if c = '(' then (fun ts => Tok.lparen :: ts) <$> lexTokens fuel cs
      else if c = ')' then (fun ts => Tok.rparen :: ts) <$> lexTokens fuel cs
      else if c = '*' then
        match cs with
        | '*' :: rest => (fun ts => Tok.dstar :: ts) <$> lexTokens fuel rest
        | _ => (fun ts => Tok.star :: ts) <$> lexTokens fuel cs
      else if c.isDigit then
        let intPart := (c :: cs).takeWhile Char.isDigit
        let rest1 := (c :: cs).dropWhile Char.isDigit
        match rest1 with
        | '.' :: rest2 =>
            let fracPart := rest2.takeWhile Char.isDigit
            let rest3 := rest2.dropWhile Char.isDigit
            (fun ts => Tok.num (ratOfNumChars intPart fracPart) :: ts) <$> lexTokens fuel rest3
        | _ => (fun ts => Tok.num (ratOfNumChars intPart []) :: ts) <$> lexTokens fuel rest1
      else if isIdentStart c then
        let idPart := (c :: cs).takeWhile isIdentChar
        let rest := (c :: cs).dropWhile isIdentChar
        (fun ts => Tok.ident (String.mk idPart) :: ts) <$> lexTokens fuel rest
      else .error (.sympifyError "unexpected character")

mutual

/-- Parse an expression: a sum/difference of terms (lowest precedence). -/
def parseE : ℕ → List Tok → Except PyErr (SymExpr × List Tok)
  | 0, _ => .error (.sympifyError "parser fuel exhausted")
  | fuel + 1, toks => do
      let (t, rest) ← parseT fuel toks
      parseERest fuel t rest

/-- Parse the remaining (+ term | - term)* of a sum, left-associatively. -/
def parseERest : ℕ → SymExpr → List Tok → Except PyErr (SymExpr × List Tok)
  | 0, _, _ => .error (.sympifyError "parser fuel exhausted")
  | fuel + 1, acc, toks =>
      match toks with
      | Tok.plus :: rest => do
          let (t, rest2) ← parseT fuel rest
          parseERest fuel (SymExpr.add acc t) rest2
      | Tok.minus :: rest => do
          let (t, rest2) ← parseT fuel rest
          parseERest fuel (SymExpr.sub acc t) rest2
      | _ => .ok (acc, toks)

/-- Parse a term: a product/quotient of factors. -/
def parseT : ℕ → List Tok → Except PyErr (SymExpr × List Tok)
  | 0, _ => .error (.sympifyError "parser fuel exhausted")
  | fuel + 1, toks => do
      let (t, rest) ← parseF fuel toks
      parseTRest fuel t rest

/-- Parse the remaining (* factor | / factor)* of a product, left-associatively. -/
def parseTRest : ℕ → SymExpr → List Tok → Except PyErr (SymExpr × List Tok)
  | 0, _, _ => .error (.sympifyError "parser fuel exhausted")
  | fuel + 1, acc, toks =>
      match toks with
      | Tok.star :: rest => do
          let (t, rest2) ← parseF fuel rest
          parseTRest fuel (SymExpr.mul acc t) rest2
      | Tok.slash :: rest => do
          let (t, rest2) ← parseF fuel rest
          parseTRest fuel (SymExpr.div acc t) rest2
      | _ => .ok (acc, toks)

/-- Parse a factor: unary plus/minus applied to a power. -/
def parseF : ℕ → List Tok → Except PyErr (SymExpr × List Tok)
  | 0, _ => .error (.sympifyError "parser fuel exhausted")
  | fuel + 1, toks =>
      match toks with
      | Tok.minus :: rest => do
          let (a, r) ← parseF fuel rest
          .ok (SymExpr.neg a, r)
      | Tok.plus :: rest => parseF fuel rest
      | _ => parseP fuel toks

/-- Parse a power: an atom optionally raised (right-associatively, with a
unary-expression exponent as in Python) via the ** operator. -/
def parseP : ℕ → List Tok → Except PyErr (SymExpr × List Tok)
  | 0, _ => .error (.sympifyError "parser fuel exhausted")
  | fuel + 1, toks => do
      let (a, rest) ← parseA fuel toks
      match rest with
      | Tok.dstar :: rest2 => do
          let (e, rest3) ← parseF fuel rest2
          .ok (SymExpr.pow a e, rest3)
      | _ => .ok (a, rest)

/-- Parse an atom: a numeric literal, an identifier (optionally applied to
a parenthesized argument), or a parenthesized expression.  As in sympify,
any identifier is accepted and becomes a free symbol or applied function;
binding is only checked when the compiled function is called. -/
def parseA : ℕ → List Tok → Except PyErr (SymExpr × List Tok)
  | 0, _ => .error (.sympifyError "parser fuel exhausted")
  | fuel + 1, toks =>
      match toks with
      | Tok.num q :: rest => .ok (SymExpr.num q, rest)
      | Tok.ident s :: Tok.lparen :: rest => do
          let (a, rest2) ← parseE fuel rest
          match rest2 with
          | Tok.rparen :: rest3 => .ok (SymExpr.app s a, rest3)
          | _ => .error (.sympifyError "expected closing parenthesis")
      | Tok.ident s :: rest => .ok (SymExpr.var s, rest)
      | Tok.lparen :: rest => do
          let (a, rest2) ← parseE fuel rest
          match rest2 with
          | Tok.rparen :: rest3 => .ok (a, rest3)
          | _ => .error (.sympifyError "expected closing parenthesis")
      | _ => .error (.sympifyError "unexpected token")

end

/-- The compiled form of an equation: the declared parameter names in
order, and the parsed expression.  This models the callable returned by
sympy.lambdify, which binds the declared symbols positionally. -/
structure CompiledEq where
  params : List String
  expr : SymExpr
deriving DecidableEq

/-- Character-level model of equation_str.replace of the one-character
pattern ^ by **: every caret is expanded to two stars, all other
characters are kept. -/
def caretToDstar : List Char → List Char
  | [] => []
  | c :: cs => if c = '^' then '*' :: '*' :: caretToDstar cs else c :: caretToDstar cs

/-- Model of general_utils.create_function: rewrite the textual exponent
operator ^ to the evaluator's ** syntax, then parse the string (sympify
with exp and log in the locals dictionary).  Parsing failures are
compile-time errors; unknown identifiers parse as free symbols. -/
def create_function (equation_str : String) (param_names : List String) :
    Except PyErr CompiledEq := do
  let cleaned := caretToDstar equation_str.toList
  let toks ← lexTokens (cleaned.length + 1) cleaned
  let (e, rest) ← parseE (8 * toks.length + 16) toks
  match rest with
  | [] => .ok { params := param_names, expr := e }
  | _ => .error (.sympifyError "trailing tokens")

/-- Call a compiled equation on positional arguments: the declared
parameter names are bound to the arguments in order (as lambdify does)
and the expression is evaluated in that environment. -/
def CompiledEq.call (f : CompiledEq) (args : List NumVal) : Except PyErr NumVal :=
  f.expr.eval (f.params.zip args)

/-- Truth of an Except value being a success. -/
def exceptOk {ε α : Type} : Except ε α → Bool
  | .ok _ => true
  | .error _ => false

instance instDecidableEqExcept {ε α : Type} [DecidableEq ε] [DecidableEq α] :
    DecidableEq (Except ε α) := fun x y =>
  match x, y with
  | .ok a, .ok b =>
      if h : a = b then .isTrue (by rw [h]) else .isFalse (by simp [h])
  | .error a, .error b =>
      if h : a = b then .isTrue (by rw [h]) else .isFalse (by simp [h])
  | .ok _, .error _ => .isFalse (by simp)
  | .error _, .ok _ => .isFalse (by simp)

/-- Python int() applied to a rational: truncation toward zero. -/
def pyInt (q : ℚ) : ℤ := if 0 ≤ q then ⌊q⌋ else ⌈q⌉

/-- Python slice xs[:k] with an integer k: for nonnegative k the first k
elements; for negative k all but the last -k elements (clamped at the
empty list). -/
def pySliceTo {α : Type} (k : ℤ) (xs : List α) : List α :=
  if 0 ≤ k then xs.take k.toNat else xs.take (xs.length - (-k).toNat)

/-- Python slice xs[k:] with an integer k: the complement of xs[:k]. -/
def pySliceFrom {α : Type} (k : ℤ) (xs : List α) : List α :=
  if 0 ≤ k then xs.drop k.toNat else xs.drop (xs.length - (-k).toNat)

/-- Model of general_utils.split_df.  The pandas call
df.sample(frac=1, random_state=seed) is a seeded full shuffle of the
rows; it is modelled by the explicit argument `sample`, a function of the
seed and the row list (the theorems only assume that its result is a
permutation of its input).  reset_index(drop=True) renumbers rows and is
the identity on row contents.  The split index is int(split_frac * n)
and the two parts are the iloc slices [:idx] and [idx:]. -/
def split_df {α : Type} (sample : ℕ → List α → List α) (df : List α)
    (split_frac : ℚ) (seed : ℕ) : List α × List α :=
  let df_shuffled := sample seed df
  let split_idx := pyInt (split_frac * (df_shuffled.length : ℚ))
  (pySliceTo split_idx df_shuffled, pySliceFrom split_idx df_shuffled)

/-- A dataframe row: an association list from column name to (rational)
value. -/
abbrev Row := List (String × ℚ)

/-- A dataframe: named columns and a list of rows. -/
structure DataFrame where
  columns : List String
  rows : List Row
deriving DecidableEq

/-- The values of one column across a dataframe's rows. -/
def getCol (df : DataFrame) (p : String) : List ℚ :=
  df.rows.filterMap (fun r => r.lookup p)

/-- Model of the MEDProcessor state after construction. -/
structure MEDProcessor where
  df : DataFrame
  target : String
  folder_save_name : String
  param_names : List String
deriving DecidableEq

/-- Model of MEDProcessor.__init__: validates that every requested
parameter name is a dataframe column, raising ValueError before anything
else happens; on success stores the dataframe, target, folder name and
parameter names unchanged. -/
def MEDProcessor.init (param_names : List String) (df : DataFrame)
    (target : String) (folder_save_name : String) : Except PyErr MEDProcessor :=
  let missing := param_names.filter (fun p => decide (p ∉ df.columns))
  if missing.isEmpty then
    .ok { df := df, target := target, folder_save_name := folder_save_name,
          param_names := param_names }
  else
    .error (.valueError "The following param_names are not found in the DataFrame columns")

/-- The parameter-bounds dictionary built by prepare_data: names plus the
per-parameter minima and maxima (None only for an empty column, as
pandas min/max of an empty series is NaN). -/
structure MedParameters where
  names : List String
  minimums : List (Option ℚ)
  maximums : List (Option ℚ)
deriving DecidableEq

/-- Model of MEDProcessor.prepare_data: splits the stored dataframe's
rows via split_df, and computes each parameter's minimum and maximum
over the FULL stored dataframe (self.df), not over the train split. -/
def MEDProcessor.prepare_data (self : MEDProcessor)
    (sample : ℕ → List Row → List Row) (split_frac : ℚ) (seed : ℕ) :
    List Row × List Row × MedParameters :=
  let tt := split_df sample self.df.rows split_frac seed
  let minimums := self.param_names.map (fun p => (getCol self.df p).min?)
  let maximums := self.param_names.map (fun p => (getCol self.df p).max?)
  (tt.1, tt.2, { names := self.param_names, minimums := minimums, maximums := maximums })

/-- One row of the discovery artifact (hall_of_fame.csv): the equation
text and its backend-assigned complexity. -/
structure EqRecord where
  Equation : String
  Complexity : ℤ
deriving DecidableEq

/-- Lexicographic comparison of two rational lists (pandas multi-column
ascending sort order). -/
def lexLE : List ℚ → List ℚ → Bool
  | [], _ => true
  | _ :: _, [] => false
  | a :: as, b :: bs => if a < b then true else if b < a then false else lexLE as bs

/-- The sort key of a row under sort_values(by=param_names). -/
def rowKey (params : List String) (r : Row) : List ℚ :=
  params.map (fun p => ((r.lookup p).getD 0))

/-- Row comparison for the test-set sort. -/
def rowLE (params : List String) (a b : Row) : Bool :=
  lexLE (rowKey params a) (rowKey params b)

/-- Insert a row into a sorted list of rows. -/
def insertRow (le : Row → Row → Bool) (r : Row) : List Row → List Row
  | [] => [r]
  | x :: xs => if le r x then r :: x :: xs else x :: insertRow le r xs

/-- Sort rows ascending (model of test_df.sort_values(by=param_names);
the order among tied keys carries no weight, per the spec). -/
def sortRows (le : Row → Row → Bool) : List Row → List Row
  | [] => []
  | r :: rs => insertRow le r (sortRows le rs)

/-- One output row of test_equations: the row's parameter values, the
true target value, and one relative-error entry per equation record,
keyed by that record's complexity (the column name encodes it). -/
structure ResultRow where
  paramVals : List (String × ℚ)
  targetVal : ℚ
  errs : List (ℤ × NumVal)
deriving DecidableEq

/-- The relative error computed by test_equations for one test row and
one compiled equation: np.abs(actual - pred) / (np.abs(actual) + 1e-8),
with the float literal 1e-8 read as the exact rational 1/10^8. -/
def relative_error (actual pred : NumVal) : NumVal :=
  NumVal.div (NumVal.abs (NumVal.sub actual pred))
    (NumVal.add (NumVal.abs actual) (NumVal.fin (1 / 100000000)))

/-- Monadic map over a list with exception propagation: the Python for
loop that collects one result per element and lets the first raised
exception abort the whole pass. -/
def mapExcept {ε α β : Type} (g : α → Except ε β) : List α → Except ε (List β)
  | [] => .ok []
  | a :: as => do
      let b ← g a
      let bs ← mapExcept g as
      .ok (b :: bs)

/-- The inner loop of test_equations for one test row: for each compiled
equation (keyed by complexity), call it on the row's parameter values in
declared order (a NameError propagates) and record the relative error of
the prediction against the row's target value. -/
def rowErrs (param_names : List String) (target : String)
    (funcs : List (ℤ × CompiledEq)) (test_row : Row) :
    Except PyErr (List (ℤ × NumVal)) :=
  mapExcept (fun cf => do
    let param_values := param_names.map (fun p => NumVal.fin ((test_row.lookup p).getD 0))
    let pred ← cf.2.call param_values
    .ok (cf.1, relative_error (NumVal.fin ((test_row.lookup target).getD 0)) pred)) funcs

/-- Model of MEDProcessor.test_equations.  The equation artifact (read
from hall_of_fame.csv in the code) is passed as the list df_equations.
Each equation is compiled with create_function (a parse failure
propagates out of DataFrame.apply and aborts the call); the test rows
are sorted by the parameter columns; then each test row is turned into a
result row carrying its parameter values, its target value, and the
per-equation relative errors computed by rowErrs. -/
def MEDProcessor.test_equations (self : MEDProcessor)
    (df_equations : List EqRecord) (test_df : List Row) :
    Except PyErr (List ResultRow) := do
  let funcs ← mapExcept (fun r => do
    let f ← create_function r.Equation self.param_names
    .ok (r.Complexity, f)) df_equations
  let sorted := sortRows (rowLE self.param_names) test_df
  mapExcept (fun test_row => do
    let errs ← rowErrs self.param_names self.target funcs test_row
    .ok { paramVals := self.param_names.map (fun p => (p, (test_row.lookup p).getD 0)),
          targetVal := (test_row.lookup self.target).getD 0,
          errs := errs }) sorted

/-- All free symbols of an expression are among the given parameter
names, and every applied function is one of the exp and log known to the
compiled code.  Compiled equations arising from the discovery backend's
operator set satisfy this for the declared parameters. -/
def SymExpr.varsBound (params : List String) : SymExpr → Bool
  | .num _ => true
  | .var s => params.contains s
  | .add a b => a.varsBound params && b.varsBound params
  | .sub a b => a.varsBound params && b.varsBound params
  | .mul a b => a.varsBound params && b.varsBound params
  | .div a b => a.varsBound params && b.varsBound params
  | .pow a b => a.varsBound params && b.varsBound params
  | .neg a => a.varsBound params
  | .app fn a => (fn = "exp" || fn = "log") && a.varsBound params

/-- Model of MEDProcessor.get_complexity_equation: filter the artifact
records to those whose Complexity equals the requested value, and return
the Equation text of the first such record in artifact row order
(.values[0]), or None when the filtered frame is empty. -/
def get_complexity_equation (df_equations : List EqRecord) (complexity : ℤ) :
    Option String :=
  match df_equations.filter (fun r => decide (r.Complexity = complexity)) with
  | [] => none
  | r :: _ => some r.Equation

/-! Helper lemmas shared by the claim theorems. -/

/-- Association-list lookup succeeds for any key among the keys. -/
theorem lookup_of_mem_keys {β : Type} (l : List (String × β)) (s : String)
    (h : s ∈ l.map Prod.fst) : ∃ v, l.lookup s = some v := by
  induction l with
  | nil => simp at h
  | cons hd tl ih =>
      rcases hd with ⟨k, v⟩
      by_cases hk : s = k
      · exact ⟨v, by subst hk; simp [List.lookup]⟩
      · have : s ∈ tl.map Prod.fst := by
          simpa [hk] using h
        obtain ⟨w, hw⟩ := ih this
        exact ⟨w, by simp [List.lookup, beq_eq_false_iff_ne.mpr hk, hw]⟩

/-- Evaluation of an expression whose symbols are all bound in the
environment and whose applied functions are exp or log never raises: it
always returns a numeric value; domain violations surface inside that
value, not as exceptions. -/
theorem eval_total_of_varsBound (e : SymExpr) (env : List (String × NumVal))
    (h : e.varsBound (env.map Prod.fst) = true) : ∃ v, e.eval env = .ok v := by
  induction e with
  | num q => exact ⟨.fin q, rfl⟩
  | var s =>
      have hs : s ∈ env.map Prod.fst := by
        simpa [SymExpr.varsBound] using h
      obtain ⟨v, hv⟩ := lookup_of_mem_keys env s hs
      exact ⟨v, by simp [SymExpr.eval, hv]⟩
  | add a b iha ihb =>
      rw [SymExpr.varsBound, Bool.and_eq_true] at h
      obtain ⟨va, hva⟩ := iha h.1
      obtain ⟨vb, hvb⟩ := ihb h.2
      exact ⟨_, by simp only [SymExpr.eval, hva, hvb]; rfl⟩
  | sub a b iha ihb =>
      rw [SymExpr.varsBound, Bool.and_eq_true] at h
      obtain ⟨va, hva⟩ := iha h.1
      obtain ⟨vb, hvb⟩ := ihb h.2
      exact ⟨_, by simp only [SymExpr.eval, hva, hvb]; rfl⟩
  | mul a b iha ihb =>
      rw [SymExpr.varsBound, Bool.and_eq_true] at h
      obtain ⟨va, hva⟩ := iha h.1
      obtain ⟨vb, hvb⟩ := ihb h.2
      exact ⟨_, by simp only [SymExpr.eval, hva, hvb]; rfl⟩
  | div a b iha ihb =>
      rw [SymExpr.varsBound, Bool.and_eq_true] at h
      obtain ⟨va, hva⟩ := iha h.1
      obtain ⟨vb, hvb⟩ := ihb h.2
      exact ⟨_, by simp only [SymExpr.eval, hva, hvb]; rfl⟩
  | pow a b iha ihb =>
      rw [SymExpr.varsBound, Bool.and_eq_true] at h
      obtain ⟨va, hva⟩ := iha h.1
      obtain ⟨vb, hvb⟩ := ihb h.2
      exact ⟨_, by simp only [SymExpr.eval, hva, hvb]; rfl⟩
  | neg a iha =>
      rw [SymExpr.varsBound] at h
      obtain ⟨va, hva⟩ := iha h
      exact ⟨_, by simp only [SymExpr.eval, hva]; rfl⟩
  | app fn a iha =>
      rw [SymExpr.varsBound, Bool.and_eq_true] at h
      obtain ⟨va, hva⟩ := iha h.2
      have hfn : fn = "exp" ∨ fn = "log" := by simpa using h.1
      rcases hfn with hfn2 | hfn2
      · subst hfn2
        exact ⟨_, by simp only [SymExpr.eval, hva]; rfl⟩
      · subst hfn2
        exact ⟨_, by simp only [SymExpr.eval, hva]; rfl⟩

/-- Every element of a successful mapExcept output comes from applying
the mapped function to some element of the input list. -/
theorem mapExcept_ok_mem {ε α β : Type} (g : α → Except ε β) (l : List α)
    (out : List β) (h : mapExcept g l = .ok out) :
    ∀ b ∈ out, ∃ a ∈ l, g a = .ok b := by
  induction l generalizing out with
  | nil =>
      simp only [mapExcept] at h
      cases h
      simp
  | cons a as ih =>
      simp only [mapExcept] at h
      cases hg : g a with
      | error e => rw [hg] at h; simp [Bind.bind, Except.bind] at h
      | ok b0 =>
          rw [hg] at h
          cases hm : mapExcept g as with
          | error e => rw [hm] at h; simp [Bind.bind, Except.bind] at h
          | ok bs =>
              rw [hm] at h
              simp only [Bind.bind, Except.bind] at h
              cases h
              intro b hb
              rcases List.mem_cons.mp hb with hb | hb
              · exact ⟨a, List.mem_cons_self a as, hb ▸ hg⟩
              · obtain ⟨a2, ha2, hga2⟩ := ih bs hm b hb
                exact ⟨a2, List.mem_cons_of_mem a ha2, hga2⟩

/-- The artifact lookup is the Equation of the first matching record. -/
theorem get_complexity_equation_eq_find (records : List EqRecord) (c : ℤ) :
    get_complexity_equation records c
      = (records.find? (fun r => decide (r.Complexity = c))).map (fun r => r.Equation) := by
  induction records with
  | nil => rfl
  | cons hd tl ih =>
      by_cases h : hd.Complexity = c
      · simp [get_complexity_equation, List.filter_cons, List.find?_cons, h]
      · simpa [get_complexity_equation, List.filter_cons, List.find?_cons, h] using ih

/-- The train part of split_df is the Python slice [:idx] of the
shuffled rows at the computed split index. -/
theorem split_df_fst {α : Type} (sample : ℕ → List α → List α) (df : List α)
    (f : ℚ) (seed : ℕ) :
    (split_df sample df f seed).1
      = pySliceTo (pyInt (f * ((sample seed df).length : ℚ))) (sample seed df) := rfl

/-- The test part of split_df is the Python slice [idx:] of the shuffled
rows at the computed split index. -/
theorem split_df_snd {α : Type} (sample : ℕ → List α → List α) (df : List α)
    (f : ℚ) (seed : ℕ) :
    (split_df sample df f seed).2
      = pySliceFrom (pyInt (f * ((sample seed df).length : ℚ))) (sample seed df) := rfl

/-- The two Python slices [:k] and [k:] always partition the list,
whatever the sign of k. -/
theorem pySlice_append {α : Type} (k : ℤ) (xs : List α) :
    pySliceTo k xs ++ pySliceFrom k xs = xs := by
  by_cases h : 0 ≤ k <;> simp [pySliceTo, pySliceFrom, h]

/-! Claim theorems. -/

/-- C2: split_df is a deterministic pure function of the dataset, the
fraction and the seed: two runs with identical inputs yield identical
train rows, identical test rows and identical row order, with the seed
the sole entropy source of the modelled pandas shuffle. -/
theorem split_df_deterministic {α : Type} (sample : ℕ → List α → List α)
    (df₁ df₂ : List α) (f₁ f₂ : ℚ) (s₁ s₂ : ℕ)
    (hdf : df₁ = df₂) (hf : f₁ = f₂) (hs : s₁ = s₂) :
    (split_df sample df₁ f₁ s₁).1 = (split_df sample df₂ f₂ s₂).1 ∧
    (split_df sample df₁ f₁ s₁).2 = (split_df sample df₂ f₂ s₂).2 := by
  subst hdf; subst hf; subst hs; exact ⟨rfl, rfl⟩

/-- Witness for C2 at a concrete dataset, fraction and seed. -/
theorem split_df_deterministic_witness :
    (split_df (fun _ l => l) [(1:ℚ)] (1/2) 42).1 = (split_df (fun _ l => l) [(1:ℚ)] (1/2) 42).1 ∧
    (split_df (fun _ l => l) [(1:ℚ)] (1/2) 42).2 = (split_df (fun _ l => l) [(1:ℚ)] (1/2) 42).2 :=
  split_df_deterministic (fun _ l => l) _ _ _ _ _ _ rfl rfl rfl

/-- C3: the relative error recorded by the evaluator is
|actual - predicted| / (|actual| + 1e-8); for actual 0 and predicted 0 it
is 0, for actual 0 and predicted 1 it is 1e8; and every error entry the
evaluator's inner loop records is exactly relative_error applied to the
row's target value and the compiled equation's prediction. -/
theorem relative_error_spec :
    (∀ actual pred : ℚ, relative_error (.fin actual) (.fin pred)
        = .fin (|actual - pred| / (|actual| + 1 / 100000000))) ∧
    relative_error (.fin 0) (.fin 0) = .fin 0 ∧
    relative_error (.fin 0) (.fin 1) = .fin 100000000 ∧
    (∀ (params : List String) (target : String) (funcs : List (ℤ × CompiledEq))
        (row : Row) (out : List (ℤ × NumVal)),
        rowErrs params target funcs row = .ok out →
        ∀ ce ∈ out, ∃ cf ∈ funcs, ∃ pred,
          cf.2.call (params.map (fun p => NumVal.fin ((row.lookup p).getD 0))) = .ok pred ∧
          ce = (cf.1, relative_error (.fin ((row.lookup target).getD 0)) pred)) := by
  have hform : ∀ actual pred : ℚ, relative_error (.fin actual) (.fin pred)
      = .fin (|actual - pred| / (|actual| + 1 / 100000000)) := by
    intro a p
    have hden : (|a| + 1 / 100000000 : ℚ) ≠ 0 := by positivity
    simp only [relative_error, NumVal.sub, NumVal.neg, NumVal.add, NumVal.abs, NumVal.div,
      if_neg hden, ← sub_eq_add_neg]
  refine ⟨hform, ?_, ?_, ?_⟩
  · rw [hform 0 0]; norm_num
  · rw [hform 0 1]; norm_num
  · intro params target funcs row out h ce hce
    obtain ⟨cf, hcf, hg⟩ := mapExcept_ok_mem _ _ _ h ce hce
    dsimp only at hg
    cases hp : cf.2.call (params.map (fun p => NumVal.fin ((row.lookup p).getD 0))) with
    | error e => rw [hp] at hg; simp [Bind.bind, Except.bind] at hg
    | ok pred =>
        rw [hp] at hg
        simp only [Bind.bind, Except.bind] at hg
        cases hg
        exact ⟨cf, hcf, pred, hp, rfl⟩

/-- Witness for C3's quantified part at a concrete row and equation. -/
theorem relative_error_spec_witness :
    ∃ cf ∈ [((1:ℤ), CompiledEq.mk ["x"] (.var "x"))], ∃ pred,
      cf.2.call (["x"].map (fun p => NumVal.fin (([(("x":String), (2:ℚ)), ("t", 6)].lookup p).getD 0)))
          = .ok pred ∧
      ((1:ℤ), relative_error (.fin 6) (.fin 2))
        = (cf.1, relative_error (.fin (([(("x":String), (2:ℚ)), ("t", 6)].lookup "t").getD 0)) pred) := by
  have h := relative_error_spec.2.2.2 ["x"] "t" [((1:ℤ), CompiledEq.mk ["x"] (.var "x"))]
    [("x", 2), ("t", 6)] [(1, relative_error (.fin 6) (.fin 2))]
    (by rfl)
  exact h (1, relative_error (.fin 6) (.fin 2)) (by simp)

/-- C4: create_function rewrites the textual exponent operator to the
evaluator's ** syntax before parsing (compiling "x^2" is identical to
compiling "x**2"), and the compiled function binds parameters
positionally in declared order: "x + y" at (2, 3) gives 5 and "x^2" at
3 gives 9. -/
theorem create_function_examples :
    create_function "x + y" ["x", "y"] = .ok ⟨["x", "y"], .add (.var "x") (.var "y")⟩ ∧
    (CompiledEq.mk ["x", "y"] (.add (.var "x") (.var "y"))).call [.fin 2, .fin 3]
        = .ok (.fin 5) ∧
    create_function "x^2" ["x"] = .ok ⟨["x"], .pow (.var "x") (.num 2)⟩ ∧
    (CompiledEq.mk ["x"] (.pow (.var "x") (.num 2))).call [.fin 3] = .ok (.fin 9) ∧
    create_function "x^2" ["x"] = create_function "x**2" ["x"] ∧
    (∀ (ps : List String) (e : SymExpr) (args : List NumVal),
        (CompiledEq.mk ps e).call args = e.eval (ps.zip args)) :=
  ⟨by with_unfolding_all decide, by with_unfolding_all decide, by with_unfolding_all decide,
    by with_unfolding_all decide, by with_unfolding_all decide, fun ps e args => rfl⟩

/-- Counterexample to C5: the equation text "q" contains the identifier
q, which is neither a declared parameter (the only parameter is x) nor a
supported operator or function, yet compilation succeeds: sympify
accepts any identifier as a free symbol. -/
theorem create_function_accepts_unknown_ident :
    create_function "q" ["x"] = .ok ⟨["x"], .var "q"⟩ := by
  with_unfolding_all decide

/-- C5 (amended): malformed equation text fails to compile with a parse
error, but an unrecognized identifier does not fail the parse: it is
accepted as a free symbol and compilation succeeds, the failure
surfacing only as a NameError when the compiled function is called. -/
theorem create_function_error_modes :
    exceptOk (create_function "x +" ["x"]) = false ∧
    create_function "q" ["x"] = .ok ⟨["x"], SymExpr.var "q"⟩ ∧
    (CompiledEq.mk ["x"] (SymExpr.var "q")).call [.fin 3]
        = .error (.nameError "q") :=
  ⟨by with_unfolding_all decide, by with_unfolding_all decide, by with_unfolding_all decide⟩

/-- C7: the parameter bounds prepare_data passes to the discovery
backend are the minimum and maximum of each parameter column over the
FULL stored dataset (self.df), not over the train split, and for a
single-row dataset the minimum equals the maximum. -/
theorem prepare_data_bounds_full_dataset (self : MEDProcessor)
    (sample : ℕ → List Row → List Row) (f : ℚ) (seed : ℕ) :
    ((self.prepare_data sample f seed).2.2.minimums
        = self.param_names.map (fun p => (getCol self.df p).min?)) ∧
    ((self.prepare_data sample f seed).2.2.maximums
        = self.param_names.map (fun p => (getCol self.df p).max?)) ∧
    (∀ (cols : List String) (r : Row) (p : String),
        (getCol ⟨cols, [r]⟩ p).min? = (getCol ⟨cols, [r]⟩ p).max?) := by
  refine ⟨rfl, rfl, fun cols r p => ?_⟩
  cases hr : r.lookup p <;>
    simp [getCol, List.filterMap_cons, hr, List.min?, List.max?]

/-- C10: get_complexity_equation returns None exactly when no artifact
record has the requested complexity, and otherwise the Equation text of
the first record in artifact row order whose Complexity matches, even
when several records share that complexity. -/
theorem get_complexity_equation_spec (records : List EqRecord) (c : ℤ) :
    (get_complexity_equation records c = none ↔ ∀ r ∈ records, r.Complexity ≠ c) ∧
    (∀ r, records.find? (fun r => decide (r.Complexity = c)) = some r →
        get_complexity_equation records c = some r.Equation) := by
  constructor
  · rw [get_complexity_equation_eq_find]
    simp [List.find?_eq_none]
  · intro r hr
    simp [get_complexity_equation_eq_find, hr]

/-- Witness for C10: among records with duplicate complexity 2, the
first in row order is returned. -/
theorem get_complexity_equation_spec_witness :
    get_complexity_equation [⟨"a", 1⟩, ⟨"b", 2⟩, ⟨"c", 2⟩] 2 = some "b" :=
  (get_complexity_equation_spec [⟨"a", 1⟩, ⟨"b", 2⟩, ⟨"c", 2⟩] 2).2 ⟨"b", 2⟩ (by decide)

/-- C1: for every dataset, every fraction strictly between 0 and 1 and
any seed, split_df returns a train part of exactly floor(f * |D|) rows,
the two parts' sizes sum to |D|, their concatenation is a permutation of
the original rows (no row mutated, none duplicated), and the parts are
disjoint whenever the dataset has no duplicate rows.  The modelled
pandas shuffle is assumed to permute the rows. -/
theorem split_df_is_partition {α : Type} (sample : ℕ → List α → List α)
    (df : List α) (f : ℚ) (seed : ℕ)
    (hperm : (sample seed df).Perm df) (hf0 : 0 < f) (hf1 : f < 1) :
    (split_df sample df f seed).1.length = (⌊f * (df.length : ℚ)⌋).toNat ∧
    (split_df sample df f seed).1.length + (split_df sample df f seed).2.length
        = df.length ∧
    ((split_df sample df f seed).1 ++ (split_df sample df f seed).2).Perm df ∧
    (df.Nodup → ∀ x ∈ (split_df sample df f seed).1,
        x ∉ (split_df sample df f seed).2) := by
  have hlen : (sample seed df).length = df.length := hperm.length_eq
  have hq0 : (0:ℚ) ≤ f * (df.length : ℚ) := mul_nonneg hf0.le (Nat.cast_nonneg _)
  have hfl0 : 0 ≤ ⌊f * (df.length : ℚ)⌋ := Int.floor_nonneg.mpr hq0
  have hle : f * (df.length : ℚ) ≤ (df.length : ℚ) :=
    mul_le_of_le_one_left (Nat.cast_nonneg _) hf1.le
  have hfle : ⌊f * (df.length : ℚ)⌋ ≤ (df.length : ℤ) := by
    have h := Int.floor_le_floor hle
    simpa using h
  have htn : (⌊f * (df.length : ℚ)⌋).toNat ≤ (sample seed df).length := by
    rw [hlen]; omega
  have hpy : pyInt (f * ((sample seed df).length : ℚ)) = ⌊f * (df.length : ℚ)⌋ := by
    rw [hlen]; simp [pyInt, hq0]
  have h1 : (split_df sample df f seed).1
      = (sample seed df).take (⌊f * (df.length : ℚ)⌋).toNat := by
    rw [split_df_fst, hpy]
    simp [pySliceTo, hfl0]
  have h2 : (split_df sample df f seed).2
      = (sample seed df).drop (⌊f * (df.length : ℚ)⌋).toNat := by
    rw [split_df_snd, hpy]
    simp [pySliceFrom, hfl0]
  refine ⟨?_, ?_, ?_, ?_⟩
  · rw [h1, List.length_take]
    omega
  · rw [h1, h2, List.length_take, List.length_drop]
    omega
  · rw [h1, h2, List.take_append_drop]
    exact hperm
  · intro hnd x hx hx2
    have hshn : (sample seed df).Nodup := hperm.nodup_iff.mpr hnd
    rw [h1] at hx
    rw [h2] at hx2
    exact List.disjoint_take_drop hshn (le_refl _) hx hx2

/-- Witness for C1 on a three-row dataset with a 7/10 fraction: the
train part has floor(7/10 * 3) = 2 rows. -/
theorem split_df_is_partition_witness :
    (0:ℚ) < 7/10 ∧ (7:ℚ)/10 < 1 ∧
    (split_df (fun _ l => l) [(0:ℕ), 1, 2] (7/10) 100).1.length
        = (⌊(7:ℚ)/10 * ((([(0:ℕ), 1, 2]).length : ℕ) : ℚ)⌋).toNat :=
  ⟨by norm_num, by norm_num,
    (split_df_is_partition (fun _ l => l) [0, 1, 2] (7/10) 100
      (List.Perm.refl _) (by norm_num) (by norm_num)).1⟩

/-- C6: a compiled equation whose symbols are all bound and whose
functions are the supported exp and log never raises during evaluation:
domain violations such as log 0 or division by zero propagate as
non-finite numeric results, e.g. log(x) compiled and called at x = 0
returns -inf (non-finite) and 1/x at x = 0 returns inf, with no
exception. -/
theorem compiled_eval_domain_violation :
    (∀ (e : SymExpr) (env : List (String × NumVal)),
        e.varsBound (env.map Prod.fst) = true → ∃ v, e.eval env = .ok v) ∧
    create_function "log(x)" ["x"] = .ok ⟨["x"], .app "log" (.var "x")⟩ ∧
    (CompiledEq.mk ["x"] (.app "log" (.var "x"))).call [.fin 0] = .ok .ninf ∧
    NumVal.nonFinite .ninf = true ∧
    (CompiledEq.mk ["x"] (.div (.num 1) (.var "x"))).call [.fin 0] = .ok .inf ∧
    NumVal.nonFinite .inf = true :=
  ⟨eval_total_of_varsBound, by with_unfolding_all decide, by with_unfolding_all decide,
    rfl, by with_unfolding_all decide, rfl⟩

/-- Witness for C6's quantified part at the compiled log(x) and an
environment binding x to 0. -/
theorem compiled_eval_domain_violation_witness :
    (SymExpr.app "log" (SymExpr.var "x")).varsBound
        ([(("x":String), NumVal.fin 0)].map Prod.fst) = true ∧
    ∃ v, (SymExpr.app "log" (SymExpr.var "x")).eval [("x", NumVal.fin 0)] = .ok v :=
  ⟨by decide, compiled_eval_domain_violation.1 _ _ (by decide)⟩

/-- C8: MEDProcessor construction validates the parameter names against
the dataframe columns before anything else: it succeeds (storing its
inputs unchanged) when every requested name is a column, and fails with
a ValueError when any requested name is absent. -/
theorem medprocessor_init_validates (param_names : List String) (df : DataFrame)
    (target fsn : String) :
    ((∀ p ∈ param_names, p ∈ df.columns) →
        MEDProcessor.init param_names df target fsn
          = .ok ⟨df, target, fsn, param_names⟩) ∧
    ((∃ p ∈ param_names, p ∉ df.columns) →
        exceptOk (MEDProcessor.init param_names df target fsn) = false) := by
  constructor
  · intro hall
    have hfil : param_names.filter (fun p => decide (p ∉ df.columns)) = [] := by
      apply List.filter_eq_nil_iff.mpr
      intro a ha
      simpa using hall a ha
    simp only [MEDProcessor.init, hfil, List.isEmpty_nil, if_true]
  · rintro ⟨p, hp, hnot⟩
    have hnall : ¬∀ a ∈ param_names, a ∈ df.columns := fun hall => hnot (hall p hp)
    simp [MEDProcessor.init, hnall, exceptOk]

/-- Witness for C8: construction succeeds when the parameter is a
column and fails when it is not. -/
theorem medprocessor_init_validates_witness :
    MEDProcessor.init ["a"] ⟨["a", "b"], []⟩ "t" "out"
        = .ok ⟨⟨["a", "b"], []⟩, "t", "out", ["a"]⟩ ∧
    exceptOk (MEDProcessor.init ["c"] ⟨["a", "b"], []⟩ "t" "out") = false :=
  ⟨(medprocessor_init_validates ["a"] ⟨["a", "b"], []⟩ "t" "out").1 (by decide),
   (medprocessor_init_validates ["c"] ⟨["a", "b"], []⟩ "t" "out").2 ⟨"c", by decide, by decide⟩⟩

/-- Counterexample to C9: with fraction -1/2 on a four-row dataset the
split index is int(-2.0) = -2, and Python slice semantics put the first
two rows in train and the last two in test, so neither part is empty:
a fraction ≤ 0 does not yield an empty train set. -/
theorem split_df_negative_fraction_counterexample :
    (split_df (fun _ l => l) [(0:ℕ), 1, 2, 3] (-(1:ℚ)/2) 100).1 = [0, 1] ∧
    (split_df (fun _ l => l) [(0:ℕ), 1, 2, 3] (-(1:ℚ)/2) 100).2 = [2, 3] ∧
    (split_df (fun _ l => l) [(0:ℕ), 1, 2, 3] (-(1:ℚ)/2) 100).1 ≠ [] ∧
    (split_df (fun _ l => l) [(0:ℕ), 1, 2, 3] (-(1:ℚ)/2) 100).2 ≠ [] :=
  ⟨by with_unfolding_all decide, by with_unfolding_all decide,
    by with_unfolding_all decide, by with_unfolding_all decide⟩

/-- C9 (amended): split_df never rejects or raises for a fraction
outside (0, 1): the two parts always partition the shuffled rows.  For
fraction ≥ 1 the test part is empty and train is the whole dataset; for
fraction ≤ 0 with fraction * |D| > -1 (in particular fraction = 0) the
train part is empty; for fraction * |D| ≤ -1 the negative split index is
interpreted by Python slicing from the end, and neither part need be
empty. -/
theorem split_df_out_of_range {α : Type} (sample : ℕ → List α → List α)
    (df : List α) (f : ℚ) (seed : ℕ) (hperm : (sample seed df).Perm df) :
    ((split_df sample df f seed).1 ++ (split_df sample df f seed).2).Perm df ∧
    (1 ≤ f → (split_df sample df f seed).2 = []
        ∧ (split_df sample df f seed).1.Perm df) ∧
    (f ≤ 0 → -1 < f * (df.length : ℚ) → (split_df sample df f seed).1 = []
        ∧ (split_df sample df f seed).2.Perm df) := by
  have hlen : (sample seed df).length = df.length := hperm.length_eq
  refine ⟨?_, ?_, ?_⟩
  · rw [split_df_fst, split_df_snd, pySlice_append]
    exact hperm
  · intro hf1
    have hq0 : (0:ℚ) ≤ f * (df.length : ℚ) :=
      mul_nonneg (le_trans zero_le_one hf1) (Nat.cast_nonneg _)
    have hge : (df.length : ℚ) ≤ f * (df.length : ℚ) :=
      le_mul_of_one_le_left (Nat.cast_nonneg _) hf1
    have hflge : (df.length : ℤ) ≤ ⌊f * (df.length : ℚ)⌋ := by
      have h := Int.floor_le_floor hge
      simpa using h
    have hpy : pyInt (f * ((sample seed df).length : ℚ)) = ⌊f * (df.length : ℚ)⌋ := by
      rw [hlen]; simp [pyInt, hq0]
    have hfl0 : 0 ≤ ⌊f * (df.length : ℚ)⌋ := le_trans (by omega) hflge
    have hlentn : (sample seed df).length ≤ (⌊f * (df.length : ℚ)⌋).toNat := by
      rw [hlen]; omega
    constructor
    · rw [split_df_snd, hpy]
      simp only [pySliceFrom, if_pos hfl0]
      exact List.drop_eq_nil_of_le hlentn
    · rw [split_df_fst, hpy]
      simp only [pySliceTo, if_pos hfl0]
      rw [List.take_of_length_le hlentn]
      exact hperm
  · intro hf0 hgt
    have hq0 : f * (df.length : ℚ) ≤ 0 :=
      mul_nonpos_of_nonpos_of_nonneg hf0 (Nat.cast_nonneg _)
    have hk : pyInt (f * ((sample seed df).length : ℚ)) = 0 := by
      rw [hlen]
      by_cases h0 : (0:ℚ) ≤ f * (df.length : ℚ)
      · have heq : f * (df.length : ℚ) = 0 := le_antisymm hq0 h0
        simp [pyInt, heq]
      · have hlt : f * (df.length : ℚ) < 0 := lt_of_not_le h0
        have hcle : ⌈f * (df.length : ℚ)⌉ ≤ 0 := Int.ceil_le.mpr (by exact_mod_cast hq0)
        have hcgt : (-1 : ℤ) < ⌈f * (df.length : ℚ)⌉ := by
          rw [Int.lt_ceil]
          exact_mod_cast hgt
        have : ⌈f * (df.length : ℚ)⌉ = 0 := by omega
        simp [pyInt, h0, this]
    constructor
    · rw [split_df_fst, hk]
      simp [pySliceTo]
    · rw [split_df_snd, hk]
      simpa [pySliceFrom] using hperm

/-- Witness for C9's amended statement: fraction 2 on a two-row dataset
gives an empty test part and the whole dataset as train. -/
theorem split_df_out_of_range_witness :
    (split_df (fun _ l => l) [(0:ℕ), 1] (2:ℚ) 100).2 = [] ∧
    (split_df (fun _ l => l) [(0:ℕ), 1] (2:ℚ) 100).1.Perm [0, 1] :=
  (split_df_out_of_range (fun _ l => l) [0, 1] 2 100 (List.Perm.refl _)).2.1 (by norm_num)

end MedSR
